import Mathlib

/-!
Verification of the pdfwatcher record-assembly pipeline.

This file shallowly embeds the core of `pdfwatcherapp1.py`:
the fragment classifier and record assembler `parse_records` (with its
inner closure `flush_group`), the change handler `on_modified` (seen-set
deduplication and store append), and the banding recomputation of
`append_to_xlsx`.  Pages are `Nat`, texts are `String`, fallible code
returns `Except String`.  The real-world current date
(`datetime.now().strftime('%d/%m/%Y')`) is passed in as an explicit
`today` argument; the extraction outcome of `extract_highlighted_text`
(which is pure PyMuPDF I/O) is passed to `on_modified` as an explicit
`Except` value.
-/

namespace PdfWatcher

/-! ### Python string primitives used by the source -/

/-- Python `str.strip()` (restricted to the ASCII whitespace the inputs use):
drop whitespace from both ends. -/
def pyStrip (s : String) : String :=
  ⟨((s.data.dropWhile Char.isWhitespace).reverse.dropWhile Char.isWhitespace).reverse⟩

/-- Trailing-whitespace strip, used to model the `\s*$` part of `re.sub(r',\s*$', ...)`. -/
def pyRStrip (s : String) : String :=
  ⟨(s.data.reverse.dropWhile Char.isWhitespace).reverse⟩

/-- Python `text.replace('\n', ' ')`. -/
def replaceNewline (s : String) : String :=
  ⟨s.data.map (fun c => if c = '\n' then ' ' else c)⟩

/-- Python `re.sub(r',\s*$', ' [...]', s)`: if the string ends with a comma
followed only by whitespace, that suffix is replaced by `" [...]"`
(the match starts at the first comma after which only whitespace remains,
i.e. at the last comma of the trailing-whitespace-stripped string). -/
def subTrailingComma (s : String) : String :=
  let r := pyRStrip s
  if r.data.getLast? == some ',' then ⟨r.data.dropLast⟩ ++ " [...]" else s

/-! ### The two strict classification regexes

`date_pattern = re.compile(r'^\d{1,2} [A-Za-z]{3} \d{4}$')` and
`time_pattern = re.compile(r'^\d{2}:\d{2}$')`.  Both are anchored full
matches of fixed shape (the `$`-before-final-newline subtlety of Python
regexes is unreachable because the matched text is always stripped first).
`\d` is modelled as an ASCII digit. -/

/-- Character list form of `^\d{1,2} [A-Za-z]{3} \d{4}$`. -/
def date_pat : List Char → Bool
  | [d1, s1, a, b, c, s2, y1, y2, y3, y4] =>
      d1.isDigit && (s1 == ' ') && a.isAlpha && b.isAlpha && c.isAlpha &&
      (s2 == ' ') && y1.isDigit && y2.isDigit && y3.isDigit && y4.isDigit
  | [d1, d2, s1, a, b, c, s2, y1, y2, y3, y4] =>
      d1.isDigit && d2.isDigit && (s1 == ' ') && a.isAlpha && b.isAlpha && c.isAlpha &&
      (s2 == ' ') && y1.isDigit && y2.isDigit && y3.isDigit && y4.isDigit
  | _ => false

/-- `date_pattern.match(text)` as a Boolean. -/
def date_pattern (s : String) : Bool := date_pat s.data

/-- Character list form of `^\d{2}:\d{2}$`. -/
def time_pat : List Char → Bool
  | [h1, h2, c, m1, m2] => h1.isDigit && h2.isDigit && (c == ':') && m1.isDigit && m2.isDigit
  | _ => false

/-- `time_pattern.match(text)` as a Boolean. -/
def time_pattern (s : String) : Bool := time_pat s.data

/-! ### `datetime.strptime(text, '%d %b %Y')` and `.strftime('%d/%m/%Y')`

`strptime` is modelled on the strings it is actually applied to (texts that
already matched `date_pattern`): the `%d` directive accepts the day values
1..31, `%b` accepts the C-locale month abbreviations case-insensitively, and
the `datetime` constructor then requires year >= 1 and the day to be in range
for the month (leap years included).  Anything else raises `ValueError`,
modelled as `none`. -/

def digitVal (c : Char) : Nat := c.toNat - '0'.toNat

def isLeap (y : Nat) : Bool := y % 4 == 0 && (!(y % 100 == 0) || y % 400 == 0)

def daysInMonth (m y : Nat) : Nat :=
  if m == 2 then (if isLeap y then 29 else 28)
  else if m == 4 || m == 6 || m == 9 || m == 11 then 30
  else 31

/-- The C-locale abbreviated month names, lowercased. -/
def month_abbrevs : List String :=
  ["jan", "feb", "mar", "apr", "may", "jun", "jul", "aug", "sep", "oct", "nov", "dec"]

/-- `%b`: case-insensitive month-abbreviation lookup, returning 1..12. -/
def monthFromAbbrev (mc : List Char) : Option Nat :=
  (month_abbrevs.findIdx? (fun m => m == String.mk (mc.map Char.toLower))).map (· + 1)

/-- Combine the matched day digits, month letters and year into a valid
calendar date, or `none` (`ValueError`). -/
def mkDate (day : Nat) (mc : List Char) (year : Nat) : Option (Nat × Nat × Nat) :=
  match monthFromAbbrev mc with
  | none => none
  | some m =>
      if 1 ≤ day ∧ day ≤ 31 ∧ 1 ≤ year ∧ day ≤ daysInMonth m year then
        some (day, m, year)
      else none

/-- `datetime.strptime(s, '%d %b %Y')`, returning `(day, month, year)` or
`none` for a `ValueError`. -/
def strptime_dbY (s : String) : Option (Nat × Nat × Nat) :=
  match s.data with
  | [d1, ' ', m1, m2, m3, ' ', y1, y2, y3, y4] =>
      mkDate (digitVal d1) [m1, m2, m3]
        (1000 * digitVal y1 + 100 * digitVal y2 + 10 * digitVal y3 + digitVal y4)
  | [d1, d2, ' ', m1, m2, m3, ' ', y1, y2, y3, y4] =>
      mkDate (10 * digitVal d1 + digitVal d2) [m1, m2, m3]
        (1000 * digitVal y1 + 100 * digitVal y2 + 10 * digitVal y3 + digitVal y4)
  | _ => none

def pad2 (n : Nat) : String := if n < 10 then "0" ++ toString n else toString n

/-- `dt.strftime('%d/%m/%Y')`: `%d` and `%m` are zero-padded to two digits,
`%Y` is rendered unpadded (as glibc does). -/
def strftime_dmY : Nat × Nat × Nat → String
  | (d, m, y) => pad2 d ++ "/" ++ pad2 m ++ "/" ++ toString y

/-! ### The record assembler `parse_records` -/

/-- One assembled output row `(date_str, page_str, info)`. -/
structure Record where
  date_str : String
  page_str : String
  info : String
deriving DecidableEq

/-- The state carried across fragments by `parse_records`'s loop:
the records list, `current_date`, `comment_buffer`, `pending_time`, and the
loop variable `page` (page of the last processed fragment, referenced by the
tail flush).  In `Comment → Time` mode buffer entries are `(page, text)`
pairs, in `Time → Comment` mode they are bare texts; the page component is
`some page` resp. `none`. -/
structure ParseState where
  records : List Record
  current_date : Option String
  comment_buffer : List (Option Nat × String)
  pending_time : Option String
  lastPage : Nat
deriving DecidableEq

/-- Python `current_date or today`: falls back when `current_date` is `None`
(or the empty string, which `or` also treats as false). -/
def pyOrDate : Option String → String → String
  | none, dflt => dflt
  | some d, dflt => if d == "" then dflt else d

/-- The inner closure `flush_group(comments, time_str, time_page)`:
optionally reverse the comments, join with `" [...] "`, and build one
`Record` from the current date (or `today`), locator and info strings. -/
def flush_group (join_order pfx row_heading : String) (current_date : Option String)
    (today : String) (comments : List String) (time_str : String) (time_page : Nat) : Record :=
  let comments := if join_order == "Bottom to Top" then comments.reverse else comments
  let joined := String.intercalate " [...] " comments
  let page_str := pfx ++ " " ++ toString time_page
  let info := row_heading ++ "\n" ++ time_str ++ ": " ++ joined
  let date_str := pyOrDate current_date today
  ⟨date_str, page_str, info⟩

/-- One iteration of `parse_records`'s `for page, text in highlights` loop.
`Except.error` models the `ValueError` that `datetime.strptime` raises on a
`date_pattern` text that is not a valid calendar date. -/
def parse_step (pfx row_heading mode join_order today : String) (st : ParseState)
    (frag : Nat × String) : Except String ParseState :=
  let page := frag.1
  let text := pyStrip frag.2
  if date_pattern text then
    match strptime_dbY text with
    | none => Except.error ("time data does not match format: " ++ text)
    | some dmy =>
        Except.ok { records := st.records, current_date := some (strftime_dmY dmy),
                    comment_buffer := [], pending_time := none, lastPage := page }
  else if time_pattern text then
    if mode == "Comment → Time" then
      (if st.comment_buffer.isEmpty then
        Except.ok { st with lastPage := page }
      else
        Except.ok { st with
          records := st.records ++
            [flush_group join_order pfx row_heading st.current_date today
              (st.comment_buffer.map Prod.snd) text page],
          comment_buffer := [], lastPage := page })
    else
      match st.pending_time with
      | some pt =>
          if st.comment_buffer.isEmpty then
            Except.ok { st with pending_time := some text, lastPage := page }
          else
            Except.ok { st with
              records := st.records ++
                [flush_group join_order pfx row_heading st.current_date today
                  (st.comment_buffer.map Prod.snd) pt page],
              comment_buffer := [], pending_time := some text, lastPage := page }
      | none => Except.ok { st with pending_time := some text, lastPage := page }
  else
    let c := subTrailingComma (replaceNewline text)
    if mode == "Comment → Time" then
      Except.ok { st with comment_buffer := st.comment_buffer ++ [(some page, c)], lastPage := page }
    else
      Except.ok { st with comment_buffer := st.comment_buffer ++ [(none, c)], lastPage := page }

/-- The fragment loop of `parse_records`. -/
def runParse (pfx row_heading mode join_order today : String) :
    ParseState → List (Nat × String) → Except String ParseState
  | st, [] => Except.ok st
  | st, frag :: rest =>
      match parse_step pfx row_heading mode join_order today st frag with
      | Except.error e => Except.error e
      | Except.ok st2 => runParse pfx row_heading mode join_order today st2 rest

/-- The tail flush after the loop:
`if mode == 'Time → Comment' and pending_time and comment_buffer: flush_group(...)`,
using the loop's final `page`. -/
def finishParse (pfx row_heading mode join_order today : String) (st : ParseState) : List Record :=
  if mode == "Time → Comment" then
    match st.pending_time with
    | some pt =>
        if st.comment_buffer.isEmpty then st.records
        else st.records ++
          [flush_group join_order pfx row_heading st.current_date today
            (st.comment_buffer.map Prod.snd) pt st.lastPage]
    | none => st.records
  else st.records

/-- Initial loop state (`lastPage` is arbitrary: the tail flush can only read
it after at least one fragment has overwritten it). -/
def initState : ParseState :=
  { records := [], current_date := none, comment_buffer := [], pending_time := none, lastPage := 0 }

/-- `parse_records(highlights, prefix, row_heading, mode, join_order)`. -/
def parse_records (highlights : List (Nat × String))
    (pfx row_heading mode join_order today : String) : Except String (List Record) :=
  match runParse pfx row_heading mode join_order today initState highlights with
  | Except.error e => Except.error e
  | Except.ok st => Except.ok (finishParse pfx row_heading mode join_order today st)

/-! ### The report writer: store rows and the banding recomputation -/

/-- The banding loop of `append_to_xlsx`: scan all data rows top to bottom
carrying `prev_date` (initially `None`) and `band` (initially `False`);
toggle `band` whenever the row's date differs from `prev_date`; the emitted
Boolean per row says whether that row's cells receive the fill. -/
def bandScan : Option String → Bool → List Record → List Bool
  | _, _, [] => []
  | prev_date, band, r :: rest =>
      if prev_date = some r.date_str then band :: bandScan prev_date band rest
      else (!band) :: bandScan (some r.date_str) (!band) rest

/-- `append_to_xlsx(xlsx_path, rows)` on the data rows of the store: append
the new rows, then recompute the banding over the entire store. -/
def append_to_xlsx (store : List Record) (rows : List Record) : List Record × List Bool :=
  let store2 := store ++ rows
  (store2, bandScan none false store2)

/-! ### The change handler `PDFChangeHandler.on_modified` -/

/-- The per-watch-session mutable state of the handler: the Seen-set
(`self.seen`, a set of records modelled up to membership by a list) and the
data rows of the xlsx store. -/
structure Session where
  seen : List Record
  store : List Record
deriving DecidableEq

/-- `on_modified`: if the event path matches, run extraction (its outcome is
the `extraction` argument) and `parse_records`, filter out records already in
the Seen-set, and if any remain append them to the store and add them to the
Seen-set.  Returns the possibly-updated session and either the list of newly
appended records or the propagated error. -/
def on_modified (src_path pdf_path : String)
    (extraction : Except String (List (Nat × String)))
    (pfx row_heading mode join_order today : String) (s : Session) :
    Session × Except String (List Record) :=
  if src_path == pdf_path then
    match extraction with
    | Except.error e => (s, Except.error e)
    | Except.ok raw =>
        match parse_records raw pfx row_heading mode join_order today with
        | Except.error e => (s, Except.error e)
        | Except.ok records =>
            let new := records.filter (fun r => decide (r ∉ s.seen))
            if new.isEmpty then (s, Except.ok new)
            else ({ seen := s.seen ++ new, store := (append_to_xlsx s.store new).1 }, Except.ok new)
  else (s, Except.ok [])

/-! ### Specification-side definitions for the banding claim

These two functions follow the spec's words ("a banding flag toggles every
time the date column's value changes from the immediately preceding row") and
are compared with the source-derived `bandScan`. -/

/-- Per row, whether its date differs from the immediately preceding row's
date (the first row is compared against `none`, so it always registers a
change). -/
def changeFlags : Option String → List Record → List Bool
  | _, [] => []
  | prev, r :: rest => (decide (prev ≠ some r.date_str)) :: changeFlags (some r.date_str) rest

/-- Fold a toggle flag over a list of change indicators. -/
def xorScan : Bool → List Bool → List Bool
  | _, [] => []
  | b, c :: cs => (xor b c) :: xorScan (xor b c) cs

/-! ### Helper lemmas -/

theorem intercalate_single (s c : String) : String.intercalate s [c] = c := rfl

/-- The two strict regexes are mutually exclusive: a time match has 5
characters, a date match 10 or 11. -/
theorem time_not_date (s : String) (h : time_pattern s = true) : date_pattern s = false := by
  unfold time_pattern at h
  unfold date_pattern
  generalize hs : s.data = l at h
  rcases l with _ | ⟨a, _ | ⟨b, _ | ⟨c, _ | ⟨d, _ | ⟨e, _ | ⟨f, t⟩⟩⟩⟩⟩⟩ <;>
    simp [time_pat, date_pat] at h ⊢

/-- `flush_group` on a single accumulated comment is independent of the
comment-ordering mode. -/
theorem flush_group_singleton (jo pfx heading : String) (cd : Option String)
    (today c t : String) (p : Nat) :
    flush_group jo pfx heading cd today [c] t p =
      ⟨pyOrDate cd today, pfx ++ " " ++ toString p, heading ++ "\n" ++ t ++ ": " ++ c⟩ := by
  cases hjo : jo == "Bottom to Top" <;>
    simp [flush_group, hjo, intercalate_single]

/-! ### Case lemmas for `parse_step` -/

theorem step_date_ok (pfx heading mode jo today : String) (st : ParseState) (page : Nat)
    (txt : String) (dmy : Nat × Nat × Nat)
    (hd : date_pattern (pyStrip txt) = true) (hp : strptime_dbY (pyStrip txt) = some dmy) :
    parse_step pfx heading mode jo today st (page, txt) =
      Except.ok ⟨st.records, some (strftime_dmY dmy), [], none, page⟩ := by
  simp [parse_step, hd, hp]

theorem step_date_err (pfx heading mode jo today : String) (st : ParseState) (page : Nat)
    (txt : String)
    (hd : date_pattern (pyStrip txt) = true) (hp : strptime_dbY (pyStrip txt) = none) :
    parse_step pfx heading mode jo today st (page, txt) =
      Except.error ("time data does not match format: " ++ pyStrip txt) := by
  simp [parse_step, hd, hp]

theorem step_time_ct_empty (pfx heading mode jo today : String) (st : ParseState) (page : Nat)
    (txt : String) (ht : time_pattern (pyStrip txt) = true)
    (hm : (mode == "Comment → Time") = true) (hb : st.comment_buffer.isEmpty = true) :
    parse_step pfx heading mode jo today st (page, txt) =
      Except.ok { st with lastPage := page } := by
  simp [parse_step, time_not_date _ ht, ht, hm, hb]

theorem step_time_ct_flush (pfx heading mode jo today : String) (st : ParseState) (page : Nat)
    (txt : String) (ht : time_pattern (pyStrip txt) = true)
    (hm : (mode == "Comment → Time") = true) (hb : st.comment_buffer.isEmpty = false) :
    parse_step pfx heading mode jo today st (page, txt) =
      Except.ok { st with
        records := st.records ++
          [flush_group jo pfx heading st.current_date today
            (st.comment_buffer.map Prod.snd) (pyStrip txt) page],
        comment_buffer := [], lastPage := page } := by
  simp [parse_step, time_not_date _ ht, ht, hm, hb]

theorem step_time_tc_flush (pfx heading mode jo today : String) (st : ParseState) (page : Nat)
    (txt pt : String) (ht : time_pattern (pyStrip txt) = true)
    (hm : (mode == "Comment → Time") = false) (hpend : st.pending_time = some pt)
    (hb : st.comment_buffer.isEmpty = false) :
    parse_step pfx heading mode jo today st (page, txt) =
      Except.ok { st with
        records := st.records ++
          [flush_group jo pfx heading st.current_date today
            (st.comment_buffer.map Prod.snd) pt page],
        comment_buffer := [], pending_time := some (pyStrip txt), lastPage := page } := by
  simp [parse_step, time_not_date _ ht, ht, hm, hpend, hb]

theorem step_time_tc_noflush_empty (pfx heading mode jo today : String) (st : ParseState)
    (page : Nat) (txt pt : String) (ht : time_pattern (pyStrip txt) = true)
    (hm : (mode == "Comment → Time") = false) (hpend : st.pending_time = some pt)
    (hb : st.comment_buffer.isEmpty = true) :
    parse_step pfx heading mode jo today st (page, txt) =
      Except.ok { st with pending_time := some (pyStrip txt), lastPage := page } := by
  simp [parse_step, time_not_date _ ht, ht, hm, hpend, hb]

theorem step_time_tc_noflush_none (pfx heading mode jo today : String) (st : ParseState)
    (page : Nat) (txt : String) (ht : time_pattern (pyStrip txt) = true)
    (hm : (mode == "Comment → Time") = false) (hpend : st.pending_time = none) :
    parse_step pfx heading mode jo today st (page, txt) =
      Except.ok { st with pending_time := some (pyStrip txt), lastPage := page } := by
  simp [parse_step, time_not_date _ ht, ht, hm, hpend]

theorem step_comment (pfx heading mode jo today : String) (st : ParseState) (page : Nat)
    (txt : String)
    (hd : date_pattern (pyStrip txt) = false) (ht : time_pattern (pyStrip txt) = false) :
    parse_step pfx heading mode jo today st (page, txt) =
      Except.ok { st with
        comment_buffer := st.comment_buffer ++
          [((if mode == "Comment → Time" then some page else none),
            subTrailingComma (replaceNewline (pyStrip txt)))],
        lastPage := page } := by
  cases hm : mode == "Comment → Time" <;> simp [parse_step, hd, ht, hm]

/-- A `parse_step` fails exactly on a fragment whose stripped text matches the
strict date pattern but is not a valid calendar date (`strptime` raises). -/
theorem parse_step_error_iff (pfx heading mode jo today : String) (st : ParseState)
    (page : Nat) (txt : String) :
    (∃ e, parse_step pfx heading mode jo today st (page, txt) = Except.error e) ↔
      (date_pattern (pyStrip txt) = true ∧ strptime_dbY (pyStrip txt) = none) := by
  constructor
  · rintro ⟨e, he⟩
    by_cases hd : date_pattern (pyStrip txt) = true
    · rcases hs : strptime_dbY (pyStrip txt) with _ | dmy
      · exact ⟨hd, rfl⟩
      · rw [step_date_ok pfx heading mode jo today st page txt dmy hd hs] at he
        cases he
    · have hd2 : date_pattern (pyStrip txt) = false := by simpa using hd
      by_cases ht : time_pattern (pyStrip txt) = true
      · cases hm : mode == "Comment → Time"
        · rcases hpend : st.pending_time with _ | pt
          · rw [step_time_tc_noflush_none pfx heading mode jo today st page txt ht hm hpend] at he
            cases he
          · cases hb : st.comment_buffer.isEmpty
            · rw [step_time_tc_flush pfx heading mode jo today st page txt pt ht hm hpend hb] at he
              cases he
            · rw [step_time_tc_noflush_empty pfx heading mode jo today st page txt pt ht hm hpend hb] at he
              cases he
        · cases hb : st.comment_buffer.isEmpty
          · rw [step_time_ct_flush pfx heading mode jo today st page txt ht hm hb] at he
            cases he
          · rw [step_time_ct_empty pfx heading mode jo today st page txt ht hm hb] at he
            cases he
      · have ht2 : time_pattern (pyStrip txt) = false := by simpa using ht
        rw [step_comment pfx heading mode jo today st page txt hd2 ht2] at he
        cases he
  · rintro ⟨hd, hs⟩
    exact ⟨_, step_date_err pfx heading mode jo today st page txt hd hs⟩

/-- The fragment loop fails exactly when some fragment is a date-pattern text
whose reparse fails; all other fragments are handled without error. -/
theorem runParse_error_iff (pfx heading mode jo today : String) :
    ∀ (frags : List (Nat × String)) (st : ParseState),
      (∃ e, runParse pfx heading mode jo today st frags = Except.error e) ↔
        ∃ frag ∈ frags, date_pattern (pyStrip frag.2) = true ∧
          strptime_dbY (pyStrip frag.2) = none := by
  intro frags
  induction frags with
  | nil => intro st; simp [runParse]
  | cons f rest ih =>
    intro st
    obtain ⟨p, t⟩ := f
    rcases hstep : parse_step pfx heading mode jo today st (p, t) with e | st2
    · simp only [runParse, hstep]
      constructor
      · intro _
        exact ⟨(p, t), List.mem_cons_self _ _,
          (parse_step_error_iff pfx heading mode jo today st p t).mp ⟨e, hstep⟩⟩
      · intro _
        exact ⟨e, rfl⟩
    · simp only [runParse, hstep]
      rw [ih st2]
      constructor
      · rintro ⟨frag, hmem, hbad⟩
        exact ⟨frag, List.mem_cons_of_mem _ hmem, hbad⟩
      · rintro ⟨frag, hmem, hbad⟩
        rcases List.mem_cons.mp hmem with hfe | hmem2
        · exfalso
          rw [hfe] at hbad
          obtain ⟨e, he⟩ :=
            (parse_step_error_iff pfx heading mode jo today st p t).mpr hbad
          rw [hstep] at he
          cases he
        · exact ⟨frag, hmem2, hbad⟩

/-- `parse_records` fails exactly when some fragment is a date-pattern text
whose reparse fails (the tail flush itself never fails). -/
theorem parse_records_error_iff (frags : List (Nat × String)) (pfx heading mode jo today : String) :
    (∃ e, parse_records frags pfx heading mode jo today = Except.error e) ↔
      ∃ frag ∈ frags, date_pattern (pyStrip frag.2) = true ∧
        strptime_dbY (pyStrip frag.2) = none := by
  have h := runParse_error_iff pfx heading mode jo today frags initState
  unfold parse_records
  rcases hr : runParse pfx heading mode jo today initState frags with e | st <;>
    rw [hr] at h <;> rw [← h] <;> simp

/-! ### Claims -/

/-- Claim C1: in Comment→Time association mode with locator prefix "CHR" and
heading "Daily Notes", the fragment sequence
[(p1, "1 Jan 2024"), (p2, "Patient stable"), (p3, "09:30")] yields exactly
one Record, whose date is "01/01/2024", whose locator is "CHR " followed by
p3 (the TimeMarker's page), and whose info string is
"Daily Notes" + newline + "09:30: Patient stable" (in either comment-ordering
mode and for any processing date). -/
theorem claim_C1 (p1 p2 p3 : Nat) (jo today : String) :
    parse_records [(p1, "1 Jan 2024"), (p2, "Patient stable"), (p3, "09:30")]
        "CHR" "Daily Notes" "Comment → Time" jo today
      = Except.ok [⟨"01/01/2024", "CHR " ++ toString p3, "Daily Notes\n09:30: Patient stable"⟩] := by
  have step1 : parse_step "CHR" "Daily Notes" "Comment → Time" jo today initState (p1, "1 Jan 2024")
      = Except.ok ⟨[], some "01/01/2024", [], none, p1⟩ := rfl
  have step2 : parse_step "CHR" "Daily Notes" "Comment → Time" jo today
        ⟨[], some "01/01/2024", [], none, p1⟩ (p2, "Patient stable")
      = Except.ok ⟨[], some "01/01/2024", [(some p2, "Patient stable")], none, p2⟩ := rfl
  have step3 : parse_step "CHR" "Daily Notes" "Comment → Time" jo today
        ⟨[], some "01/01/2024", [(some p2, "Patient stable")], none, p2⟩ (p3, "09:30")
      = Except.ok ⟨[flush_group jo "CHR" "Daily Notes" (some "01/01/2024") today
          ["Patient stable"] "09:30" p3], some "01/01/2024", [], none, p3⟩ := rfl
  simp only [parse_records, runParse, step1, step2, step3, finishParse,
    flush_group_singleton]
  rfl

/-- Claim C4: if extraction fails (source document missing, locked, or
structurally corrupt), the handler invocation surfaces exactly that error,
and the session is unchanged: no rows are written to the store and no entries
are added to the Seen-set (no partial fragments can be consumed, since
nothing downstream of extraction runs). -/
theorem claim_C4 (path e : String) (pfx heading mode jo today : String) (s : Session) :
    on_modified path path (Except.error e) pfx heading mode jo today s
      = (s, Except.error e) := by
  simp [on_modified]

/-- Claim C9 (amended): for every fragment whose text matches the strict
day/month-abbreviation/year pattern and whose reparse as a calendar date
succeeds, `parse_records` emits no Record for that fragment, clears the
comment buffer, clears `pending_time`, and sets `current_date` to the text
reparsed and reformatted as day/month/year; the list of Records already
emitted is unchanged by that fragment.  (The success hypothesis is needed:
a pattern-matching text whose reparse fails raises an error instead, see the
counterexample.) -/
theorem claim_C9 (pfx heading mode jo today : String) (st : ParseState) (page : Nat)
    (txt : String) (dmy : Nat × Nat × Nat)
    (hd : date_pattern (pyStrip txt) = true) (hp : strptime_dbY (pyStrip txt) = some dmy) :
    parse_step pfx heading mode jo today st (page, txt) =
      Except.ok { records := st.records, current_date := some (strftime_dmY dmy),
                  comment_buffer := [], pending_time := none, lastPage := page } :=
  step_date_ok pfx heading mode jo today st page txt dmy hd hp

/-- Witness for C9: the DateMarker "2 Mar 2023" clears the state and sets
`current_date := "02/03/2023"` without touching the emitted records. -/
theorem claim_C9_witness :
    parse_step "CHR" "Daily Notes" "Comment → Time" "Top to Bottom" "01/01/2024"
        ⟨[⟨"d", "p", "i"⟩], some "09/09/2019", [(some 3, "c")], some "08:00", 3⟩ (4, "2 Mar 2023")
      = Except.ok ⟨[⟨"d", "p", "i"⟩], some "02/03/2023", [], none, 4⟩ :=
  claim_C9 "CHR" "Daily Notes" "Comment → Time" "Top to Bottom" "01/01/2024"
    ⟨[⟨"d", "p", "i"⟩], some "09/09/2019", [(some 3, "c")], some "08:00", 3⟩ 4 "2 Mar 2023"
    (2, 3, 2023) rfl rfl

/-- Counterexample to C9 as stated: "30 Feb 2024" matches the strict
day/month-abbreviation/year pattern, yet `parse_records` does not set
`current_date` for it — the reparse (`datetime.strptime`) raises, so the
whole call fails with an error. -/
theorem claim_C9_cex :
    date_pattern "30 Feb 2024" = true ∧
    parse_records [(1, "30 Feb 2024")] "CHR" "Daily Notes" "Comment → Time" "Top to Bottom"
        "01/01/2024"
      = Except.error "time data does not match format: 30 Feb 2024" := ⟨rfl, rfl⟩

/-- Claim C3 (amended): a fragment text that fails both strict patterns is
always treated as ordinary comment text (never an error), and `parse_records`
raises an error exactly when some fragment's text matches the strict date
pattern but fails the `strptime` reparse (invalid month abbreviation, day out
of range for the month, or year 0); every other fragment sequence is handled
without error. -/
theorem claim_C3 (pfx heading mode jo today : String) :
    (∀ (st : ParseState) (page : Nat) (txt : String),
        date_pattern (pyStrip txt) = false → time_pattern (pyStrip txt) = false →
        parse_step pfx heading mode jo today st (page, txt) =
          Except.ok { st with
            comment_buffer := st.comment_buffer ++
              [((if mode == "Comment → Time" then some page else none),
                subTrailingComma (replaceNewline (pyStrip txt)))],
            lastPage := page })
    ∧ (∀ frags : List (Nat × String),
        (∃ e, parse_records frags pfx heading mode jo today = Except.error e) ↔
          ∃ frag ∈ frags, date_pattern (pyStrip frag.2) = true ∧
            strptime_dbY (pyStrip frag.2) = none) :=
  ⟨fun st page txt hd ht => step_comment pfx heading mode jo today st page txt hd ht,
   fun frags => parse_records_error_iff frags pfx heading mode jo today⟩

/-- Witness for C3: "continued," fails both patterns and is buffered as the
comment "continued [...]", and a sequence whose only date-pattern fragment
reparses validly triggers no error. -/
theorem claim_C3_witness :
    parse_step "CHR" "Daily Notes" "Comment → Time" "Top to Bottom" "01/01/2024"
        initState (2, "continued,")
      = Except.ok ⟨[], none, [(some 2, "continued [...]")], none, 2⟩ ∧
    ((∃ e, parse_records [(1, "05 Sep 1999"), (1, "note")] "CHR" "Daily Notes"
          "Comment → Time" "Top to Bottom" "01/01/2024" = Except.error e) ↔
      ∃ frag ∈ [((1 : Nat), "05 Sep 1999"), (1, "note")],
        date_pattern (pyStrip frag.2) = true ∧ strptime_dbY (pyStrip frag.2) = none) :=
  ⟨(claim_C3 "CHR" "Daily Notes" "Comment → Time" "Top to Bottom" "01/01/2024").1
      initState 2 "continued," rfl rfl,
   (claim_C3 "CHR" "Daily Notes" "Comment → Time" "Top to Bottom" "01/01/2024").2
      [(1, "05 Sep 1999"), (1, "note")]⟩

/-- Counterexample to C3 as stated: "1 Foo 2024" matches the strict date
pattern (one digit, three letters, four digits), yet `parse_records` raises
an error on it, because `datetime.strptime` rejects "Foo" as a month
abbreviation.  So `parse_records` is not total. -/
theorem claim_C3_cex :
    date_pattern "1 Foo 2024" = true ∧
    parse_records [(1, "1 Foo 2024")] "CHR" "Daily Notes" "Comment → Time" "Top to Bottom"
        "01/01/2024"
      = Except.error "time data does not match format: 1 Foo 2024" := ⟨rfl, rfl⟩

/-- Claim C6 (amended): for every fragment sequence and configuration, a
Record is emitted only at the moment a TimeMarker (or the end-of-stream tail
flush) resolves a comment buffer that is non-empty as a list of accumulated
entries; a TimeMarker arriving while the buffer is empty emits no Record.
(The joined comment *text* of an emitted Record can still be empty, when an
accumulated entry is itself the empty string — see the counterexample.) -/
theorem claim_C6 (pfx heading mode jo today : String) :
    (∀ (st : ParseState) (page : Nat) (txt : String) (st2 : ParseState),
        parse_step pfx heading mode jo today st (page, txt) = Except.ok st2 →
        st2.records = st.records ∨
          (time_pattern (pyStrip txt) = true ∧ st.comment_buffer ≠ [] ∧
            ∃ r, st2.records = st.records ++ [r]))
    ∧ (∀ (st : ParseState) (page : Nat) (txt : String) (st2 : ParseState),
        time_pattern (pyStrip txt) = true → st.comment_buffer = [] →
        parse_step pfx heading mode jo today st (page, txt) = Except.ok st2 →
        st2.records = st.records)
    ∧ (∀ st : ParseState,
        finishParse pfx heading mode jo today st = st.records ∨
          (st.comment_buffer ≠ [] ∧
            ∃ r, finishParse pfx heading mode jo today st = st.records ++ [r])) := by
  refine ⟨?_, ?_, ?_⟩
  · intro st page txt st2 hok
    by_cases hd : date_pattern (pyStrip txt) = true
    · rcases hs : strptime_dbY (pyStrip txt) with _ | dmy
      · rw [step_date_err pfx heading mode jo today st page txt hd hs] at hok
        cases hok
      · rw [step_date_ok pfx heading mode jo today st page txt dmy hd hs] at hok
        cases hok
        exact Or.inl rfl
    · have hd2 : date_pattern (pyStrip txt) = false := by simpa using hd
      by_cases ht : time_pattern (pyStrip txt) = true
      · cases hm : mode == "Comment → Time"
        · rcases hpend : st.pending_time with _ | pt
          · rw [step_time_tc_noflush_none pfx heading mode jo today st page txt ht hm hpend] at hok
            cases hok
            exact Or.inl rfl
          · cases hb : st.comment_buffer.isEmpty
            · rw [step_time_tc_flush pfx heading mode jo today st page txt pt ht hm hpend hb] at hok
              cases hok
              refine Or.inr ⟨ht, fun hnil => ?_, ⟨_, rfl⟩⟩
              rw [hnil] at hb
              simp at hb
            · rw [step_time_tc_noflush_empty pfx heading mode jo today st page txt pt ht hm hpend hb] at hok
              cases hok
              exact Or.inl rfl
        · cases hb : st.comment_buffer.isEmpty
          · rw [step_time_ct_flush pfx heading mode jo today st page txt ht hm hb] at hok
            cases hok
            refine Or.inr ⟨ht, fun hnil => ?_, ⟨_, rfl⟩⟩
            rw [hnil] at hb
            simp at hb
          · rw [step_time_ct_empty pfx heading mode jo today st page txt ht hm hb] at hok
            cases hok
            exact Or.inl rfl
      · have ht2 : time_pattern (pyStrip txt) = false := by simpa using ht
        rw [step_comment pfx heading mode jo today st page txt hd2 ht2] at hok
        cases hok
        exact Or.inl rfl
  · intro st page txt st2 ht hbnil hok
    have hb : st.comment_buffer.isEmpty = true := by simp [hbnil]
    cases hm : mode == "Comment → Time"
    · rcases hpend : st.pending_time with _ | pt
      · rw [step_time_tc_noflush_none pfx heading mode jo today st page txt ht hm hpend] at hok
        cases hok
        rfl
      · rw [step_time_tc_noflush_empty pfx heading mode jo today st page txt pt ht hm hpend hb] at hok
        cases hok
        rfl
    · rw [step_time_ct_empty pfx heading mode jo today st page txt ht hm hb] at hok
      cases hok
      rfl
  · intro st
    cases hm : mode == "Time → Comment"
    · left
      simp [finishParse, hm]
    · rcases hpend : st.pending_time with _ | pt
      · left
        simp [finishParse, hm, hpend]
      · cases hb : st.comment_buffer.isEmpty
        · right
          refine ⟨fun hnil => ?_, ?_⟩
          · rw [hnil] at hb
            simp at hb
          · exact ⟨flush_group jo pfx heading st.current_date today
              (st.comment_buffer.map Prod.snd) pt st.lastPage,
              by simp [finishParse, hm, hpend, hb]⟩
        · left
          simp [finishParse, hm, hpend, hb]

/-- Witness for C6: a TimeMarker on an empty buffer emits nothing, and a
TimeMarker resolving a one-entry buffer emits exactly one Record. -/
theorem claim_C6_witness :
    (parse_step "CHR" "Daily Notes" "Comment → Time" "Top to Bottom" "05/05/2024"
        initState (2, "09:30") = Except.ok ⟨[], none, [], none, 2⟩ ∧
      (⟨[], none, [], none, 2⟩ : ParseState).records = initState.records) ∧
    ((⟨[⟨"05/05/2024", "CHR 2", "Daily Notes\n09:30: x"⟩], none, [], none, 2⟩ : ParseState).records
        = (⟨[], none, [(some 1, "x")], none, 1⟩ : ParseState).records ∨
      (time_pattern (pyStrip "09:30") = true ∧
        (⟨[], none, [(some 1, "x")], none, 1⟩ : ParseState).comment_buffer ≠ [] ∧
        ∃ r, (⟨[⟨"05/05/2024", "CHR 2", "Daily Notes\n09:30: x"⟩], none, [], none, 2⟩ : ParseState).records
          = (⟨[], none, [(some 1, "x")], none, 1⟩ : ParseState).records ++ [r])) :=
  ⟨⟨rfl, (claim_C6 "CHR" "Daily Notes" "Comment → Time" "Top to Bottom" "05/05/2024").2.1
      initState 2 "09:30" ⟨[], none, [], none, 2⟩ rfl rfl rfl⟩,
   (claim_C6 "CHR" "Daily Notes" "Comment → Time" "Top to Bottom" "05/05/2024").1
      ⟨[], none, [(some 1, "x")], none, 1⟩ 2 "09:30"
      ⟨[⟨"05/05/2024", "CHR 2", "Daily Notes\n09:30: x"⟩], none, [], none, 2⟩ rfl⟩

/-- Counterexample to C6 as stated: a fragment whose text strips to the empty
string is buffered as an empty comment entry, and the next TimeMarker then
emits a Record whose joined comment text is empty ("Daily Notes\n09:30: "). -/
theorem claim_C6_cex :
    parse_records [(1, ""), (2, "09:30")] "CHR" "Daily Notes" "Comment → Time" "Top to Bottom"
        "05/05/2024"
      = Except.ok [⟨"05/05/2024", "CHR 2", "Daily Notes" ++ "\n" ++ "09:30" ++ ": " ++ ""⟩] := rfl

theorem runParse_cons_ok (pfx heading mode jo today : String) (st st1 : ParseState)
    (f : Nat × String) (rest : List (Nat × String))
    (h : parse_step pfx heading mode jo today st f = Except.ok st1) :
    runParse pfx heading mode jo today st (f :: rest) =
      runParse pfx heading mode jo today st1 rest := by
  rw [runParse, h]

theorem runParse_cons_err (pfx heading mode jo today : String) (st : ParseState)
    (f : Nat × String) (rest : List (Nat × String)) (e : String)
    (h : parse_step pfx heading mode jo today st f = Except.error e) :
    runParse pfx heading mode jo today st (f :: rest) = Except.error e := by
  rw [runParse, h]

/-- The fragment loop splits over list append. -/
theorem runParse_append (pfx heading mode jo today : String) :
    ∀ (a b : List (Nat × String)) (st : ParseState),
      runParse pfx heading mode jo today st (a ++ b) =
        match runParse pfx heading mode jo today st a with
        | Except.error e => Except.error e
        | Except.ok st1 => runParse pfx heading mode jo today st1 b := by
  intro a
  induction a with
  | nil => intro b st; rfl
  | cons f rest ih =>
    intro b st
    rw [List.cons_append, runParse, runParse]
    rcases parse_step pfx heading mode jo today st f with e | st2
    · rfl
    · exact ih b st2

/-- Fragments classified as CommentText never fail and never change the
emitted records (they only grow the buffer). -/
theorem trail_preserves_records (pfx heading mode jo today : String) :
    ∀ (trail : List (Nat × String)) (st : ParseState),
      (∀ frag ∈ trail, date_pattern (pyStrip frag.2) = false ∧
        time_pattern (pyStrip frag.2) = false) →
      ∃ st2, runParse pfx heading mode jo today st trail = Except.ok st2 ∧
        st2.records = st.records := by
  intro trail
  induction trail with
  | nil => intro st _; exact ⟨st, rfl, rfl⟩
  | cons f rest ih =>
    intro st hall
    obtain ⟨p, t⟩ := f
    obtain ⟨hd, ht⟩ := hall (p, t) (List.mem_cons_self _ _)
    obtain ⟨st2, hrun, hrec⟩ :=
      ih _ (fun frag hm => hall frag (List.mem_cons_of_mem _ hm))
    rw [runParse, step_comment pfx heading mode jo today st p t hd ht]
    exact ⟨st2, hrun, hrec⟩

/-- Without any TimeMarker fragment, a successful loop leaves the records
unchanged. -/
theorem no_time_preserves_records (pfx heading mode jo today : String) :
    ∀ (frags : List (Nat × String)) (st st2 : ParseState),
      (∀ frag ∈ frags, time_pattern (pyStrip frag.2) = false) →
      runParse pfx heading mode jo today st frags = Except.ok st2 →
      st2.records = st.records := by
  intro frags
  induction frags with
  | nil => intro st st2 _ h; cases h; rfl
  | cons f rest ih =>
    intro st st2 hall hrun
    obtain ⟨p, t⟩ := f
    have ht := hall (p, t) (List.mem_cons_self _ _)
    have hrest := fun frag hm => hall frag (List.mem_cons_of_mem _ hm)
    by_cases hd : date_pattern (pyStrip t) = true
    · rcases hs : strptime_dbY (pyStrip t) with _ | dmy
      · rw [runParse_cons_err pfx heading mode jo today st (p, t) rest _
          (step_date_err pfx heading mode jo today st p t hd hs)] at hrun
        cases hrun
      · rw [runParse_cons_ok pfx heading mode jo today st _ (p, t) rest
          (step_date_ok pfx heading mode jo today st p t dmy hd hs)] at hrun
        have hih := ih _ st2 hrest hrun
        exact hih
    · have hd2 : date_pattern (pyStrip t) = false := by simpa using hd
      rw [runParse_cons_ok pfx heading mode jo today st _ (p, t) rest
          (step_comment pfx heading mode jo today st p t hd2 ht)] at hrun
      have hih := ih _ st2 hrest hrun
      exact hih

/-- Claim C10: in Comment→Time association mode there is no end-of-stream
flush: CommentText fragments that accumulate after the last TimeMarker are
silently discarded (appending them to any fragment sequence leaves the
result unchanged), and a sequence containing no TimeMarker at all yields no
Records. -/
theorem claim_C10 (pfx heading jo today : String) :
    (∀ (frags trail : List (Nat × String)),
        (∀ frag ∈ trail, date_pattern (pyStrip frag.2) = false ∧
          time_pattern (pyStrip frag.2) = false) →
        parse_records (frags ++ trail) pfx heading "Comment → Time" jo today =
          parse_records frags pfx heading "Comment → Time" jo today)
    ∧ (∀ (frags : List (Nat × String)) (rs : List Record),
        (∀ frag ∈ frags, time_pattern (pyStrip frag.2) = false) →
        parse_records frags pfx heading "Comment → Time" jo today = Except.ok rs →
        rs = []) := by
  have hfin : ∀ st : ParseState,
      finishParse pfx heading "Comment → Time" jo today st = st.records := fun _ => rfl
  constructor
  · intro frags trail hall
    unfold parse_records
    rw [runParse_append pfx heading "Comment → Time" jo today frags trail initState]
    rcases hr : runParse pfx heading "Comment → Time" jo today initState frags with e | st1
    · rfl
    · obtain ⟨st2, hrun, hrec⟩ :=
        trail_preserves_records pfx heading "Comment → Time" jo today trail st1 hall
      dsimp only
      rw [hrun]
      dsimp only
      rw [hfin st2, hfin st1, hrec]
  · intro frags rs hall hok
    unfold parse_records at hok
    rcases hr : runParse pfx heading "Comment → Time" jo today initState frags with e | st2 <;>
      rw [hr] at hok <;> dsimp only at hok
    · cases hok
    · cases hok
      rw [hfin st2]
      exact no_time_preserves_records pfx heading "Comment → Time" jo today frags
        initState st2 hall hr

/-- Witness for C10: trailing comments after a flushed group change nothing,
and a pure-comment sequence yields no Records. -/
theorem claim_C10_witness :
    parse_records [(1, "note"), (1, "09:00"), (2, "tail1"), (2, "tail2")]
        "CHR" "Daily Notes" "Comment → Time" "Top to Bottom" "05/05/2024" =
      parse_records [(1, "note"), (1, "09:00")]
        "CHR" "Daily Notes" "Comment → Time" "Top to Bottom" "05/05/2024" ∧
    ([] : List Record) = [] :=
  ⟨(claim_C10 "CHR" "Daily Notes" "Top to Bottom" "05/05/2024").1
      [(1, "note"), (1, "09:00")] [(2, "tail1"), (2, "tail2")] (by decide),
   (claim_C10 "CHR" "Daily Notes" "Top to Bottom" "05/05/2024").2
      [(3, "only a comment")] [] (by decide) rfl⟩

/-- Every successful step records the fragment's page in the loop variable. -/
theorem step_ok_lastPage (pfx heading mode jo today : String) (st st2 : ParseState)
    (page : Nat) (txt : String)
    (h : parse_step pfx heading mode jo today st (page, txt) = Except.ok st2) :
    st2.lastPage = page := by
  by_cases hd : date_pattern (pyStrip txt) = true
  · rcases hs : strptime_dbY (pyStrip txt) with _ | dmy
    · rw [step_date_err pfx heading mode jo today st page txt hd hs] at h
      cases h
    · rw [step_date_ok pfx heading mode jo today st page txt dmy hd hs] at h
      cases h
      rfl
  · have hd2 : date_pattern (pyStrip txt) = false := by simpa using hd
    by_cases ht : time_pattern (pyStrip txt) = true
    · cases hm : mode == "Comment → Time"
      · rcases hpend : st.pending_time with _ | pt
        · rw [step_time_tc_noflush_none pfx heading mode jo today st page txt ht hm hpend] at h
          cases h
          rfl
        · cases hb : st.comment_buffer.isEmpty
          · rw [step_time_tc_flush pfx heading mode jo today st page txt pt ht hm hpend hb] at h
            cases h
            rfl
          · rw [step_time_tc_noflush_empty pfx heading mode jo today st page txt pt ht hm hpend hb] at h
            cases h
            rfl
      · cases hb : st.comment_buffer.isEmpty
        · rw [step_time_ct_flush pfx heading mode jo today st page txt ht hm hb] at h
          cases h
          rfl
        · rw [step_time_ct_empty pfx heading mode jo today st page txt ht hm hb] at h
          cases h
          rfl
    · have ht2 : time_pattern (pyStrip txt) = false := by simpa using ht
      rw [step_comment pfx heading mode jo today st page txt hd2 ht2] at h
      cases h
      rfl

/-- After a successful loop over a non-empty fragment list, the loop variable
holds the page of the last fragment. -/
theorem runParse_lastPage (pfx heading mode jo today : String) :
    ∀ (frags : List (Nat × String)) (st st1 : ParseState) (lf : Nat × String),
      runParse pfx heading mode jo today st frags = Except.ok st1 →
      frags.getLast? = some lf →
      st1.lastPage = lf.1 := by
  intro frags
  induction frags with
  | nil => intro st st1 lf _ hlast; cases hlast
  | cons f rest ih =>
    intro st st1 lf hrun hlast
    obtain ⟨p, t⟩ := f
    rcases hstep : parse_step pfx heading mode jo today st (p, t) with e | st2
    · rw [runParse_cons_err pfx heading mode jo today st (p, t) rest e hstep] at hrun
      cases hrun
    · rw [runParse_cons_ok pfx heading mode jo today st st2 (p, t) rest hstep] at hrun
      cases rest with
      | nil =>
        cases hrun
        cases hlast
        exact step_ok_lastPage pfx heading mode jo today st st1 p t hstep
      | cons g gs =>
        rw [List.getLast?_cons_cons] at hlast
        exact ih st2 st1 lf hrun hlast

/-- Claim C2: in Time→Comment association mode, (a) a TimeMarker arriving
while `pending_time` is set and the comment buffer is non-empty emits one
Record built from `pending_time` and the *new* TimeMarker's page, clears the
buffer, and makes the new (stripped) time the pending time; (b) after a
successful loop over a non-empty fragment stream, the tail-flush page is the
last fragment's page, and if `pending_time` and a non-empty buffer remain,
exactly one further Record is emitted with that page; (c) concretely,
[(p1,"09:00"), (q,"A"), (r,"B"), (p2,"09:15")] yields exactly one Record
with time "09:00", joined comment "A [...] B", and locator page p2. -/
theorem claim_C2 (pfx heading jo today : String) :
    (∀ (st : ParseState) (page : Nat) (txt pt : String),
        time_pattern (pyStrip txt) = true →
        st.pending_time = some pt →
        st.comment_buffer ≠ [] →
        parse_step pfx heading "Time → Comment" jo today st (page, txt) =
          Except.ok ⟨st.records ++
              [flush_group jo pfx heading st.current_date today
                (st.comment_buffer.map Prod.snd) pt page],
            st.current_date, [], some (pyStrip txt), page⟩)
    ∧ (∀ (frags : List (Nat × String)) (st0 st1 : ParseState) (lf : Nat × String) (pt : String),
        runParse pfx heading "Time → Comment" jo today st0 frags = Except.ok st1 →
        frags.getLast? = some lf →
        st1.lastPage = lf.1 ∧
          (st1.pending_time = some pt → st1.comment_buffer ≠ [] →
            finishParse pfx heading "Time → Comment" jo today st1 =
              st1.records ++
                [flush_group jo pfx heading st1.current_date today
                  (st1.comment_buffer.map Prod.snd) pt st1.lastPage]))
    ∧ (∀ p1 q r p2 : Nat,
        parse_records [(p1, "09:00"), (q, "A"), (r, "B"), (p2, "09:15")]
            pfx heading "Time → Comment" "Top to Bottom" today =
          Except.ok [⟨today, pfx ++ " " ++ toString p2,
            heading ++ "\n" ++ "09:00" ++ ": " ++ "A [...] B"⟩]) := by
  refine ⟨?_, ?_, ?_⟩
  · intro st page txt pt htp hpend hbuf
    have hb : st.comment_buffer.isEmpty = false := by
      cases hcb : st.comment_buffer with
      | nil => exact absurd hcb hbuf
      | cons x xs => rfl
    exact step_time_tc_flush pfx heading "Time → Comment" jo today st page txt pt htp rfl
      hpend hb
  · intro frags st0 st1 lf pt hrun hlast
    refine ⟨runParse_lastPage pfx heading "Time → Comment" jo today frags st0 st1 lf hrun hlast,
      fun hpend hbuf => ?_⟩
    have hb : st1.comment_buffer.isEmpty = false := by
      cases hcb : st1.comment_buffer with
      | nil => exact absurd hcb hbuf
      | cons x xs => rfl
    simp [finishParse, hpend, hb]
  · intro p1 q r p2
    rfl

/-- Witness for C2 at concrete inputs: an in-stream flush, a tail flush with
the last fragment's page, and the concrete four-fragment example. -/
theorem claim_C2_witness :
    (parse_step "CHR" "Daily Notes" "Time → Comment" "Top to Bottom" "01/06/2024"
        ⟨[], none, [(none, "x")], some "09:00", 5⟩ (7, "09:15")
      = Except.ok ⟨[⟨"01/06/2024", "CHR 7", "Daily Notes" ++ "\n" ++ "09:00" ++ ": " ++ "x"⟩],
          none, [], some "09:15", 7⟩) ∧
    ((⟨[], none, [(none, "note")], some "09:00", 4⟩ : ParseState).lastPage = 4 ∧
      finishParse "CHR" "Daily Notes" "Time → Comment" "Top to Bottom" "01/06/2024"
          ⟨[], none, [(none, "note")], some "09:00", 4⟩
        = [⟨"01/06/2024", "CHR 4", "Daily Notes" ++ "\n" ++ "09:00" ++ ": " ++ "note"⟩]) ∧
    (parse_records [(1, "09:00"), (2, "A"), (3, "B"), (9, "09:15")]
        "CHR" "Daily Notes" "Time → Comment" "Top to Bottom" "01/06/2024"
      = Except.ok [⟨"01/06/2024", "CHR 9", "Daily Notes" ++ "\n" ++ "09:00" ++ ": " ++ "A [...] B"⟩]) := by
  have h := claim_C2 "CHR" "Daily Notes" "Top to Bottom" "01/06/2024"
  refine ⟨?_, ?_, h.2.2 1 2 3 9⟩
  · exact h.1 ⟨[], none, [(none, "x")], some "09:00", 5⟩ 7 "09:15" "09:00" rfl rfl (by decide)
  · have hB := h.2.1 [(3, "09:00"), (4, "note")] initState
      ⟨[], none, [(none, "note")], some "09:00", 4⟩ (4, "note") "09:00" rfl rfl
    exact ⟨hB.1, hB.2 rfl (by decide)⟩

/-- Unfolding equation for `on_modified` when extraction succeeds and
`parse_records` succeeds. -/
theorem on_modified_parse_ok (src pdf : String) (raw : List (Nat × String))
    (pfx heading mode jo today : String) (s : Session) (records : List Record)
    (hsp : (src == pdf) = true)
    (hpr : parse_records raw pfx heading mode jo today = Except.ok records) :
    on_modified src pdf (Except.ok raw) pfx heading mode jo today s =
      (if (records.filter (fun r => decide (r ∉ s.seen))).isEmpty then
        (s, Except.ok (records.filter (fun r => decide (r ∉ s.seen))))
      else ({ seen := s.seen ++ records.filter (fun r => decide (r ∉ s.seen)),
              store := (append_to_xlsx s.store (records.filter (fun r => decide (r ∉ s.seen)))).1 },
        Except.ok (records.filter (fun r => decide (r ∉ s.seen))))) := by
  unfold on_modified
  rw [if_pos hsp]
  dsimp only
  rw [hpr]

/-- Unfolding equation for `on_modified` when `parse_records` fails. -/
theorem on_modified_parse_err (src pdf : String) (raw : List (Nat × String))
    (pfx heading mode jo today : String) (s : Session) (e : String)
    (hsp : (src == pdf) = true)
    (hpr : parse_records raw pfx heading mode jo today = Except.error e) :
    on_modified src pdf (Except.ok raw) pfx heading mode jo today s = (s, Except.error e) := by
  unfold on_modified
  rw [if_pos hsp]
  dsimp only
  rw [hpr]

/-- Claim C5: within one watch session, a second invocation on an unchanged
document (same extraction outcome, same configuration, same processing date)
computes zero new Records and changes nothing: every Record of the second
parse is already in the Seen-set left by the first invocation. -/
theorem claim_C5 (src pdf : String) (ext : Except String (List (Nat × String)))
    (pfx heading mode jo today : String) (s s1 : Session) (new1 : List Record)
    (h : on_modified src pdf ext pfx heading mode jo today s = (s1, Except.ok new1)) :
    on_modified src pdf ext pfx heading mode jo today s1 = (s1, Except.ok []) := by
  by_cases hsp : (src == pdf) = true
  · cases ext with
    | error e =>
      unfold on_modified at h
      rw [if_pos hsp] at h
      dsimp only at h
      injection h with h1 h2
      injection h2
    | ok raw =>
      rcases hpr : parse_records raw pfx heading mode jo today with e | records
      · rw [on_modified_parse_err src pdf raw pfx heading mode jo today s e hsp hpr] at h
        injection h with h1 h2
        injection h2
      · rw [on_modified_parse_ok src pdf raw pfx heading mode jo today s records hsp hpr] at h
        split at h
        next hcond =>
          injection h with h1 h2
          injection h2 with h3
          subst h1
          have hnil : records.filter (fun r => decide (r ∉ s.seen)) = [] :=
            List.isEmpty_eq_true.mp hcond
          rw [on_modified_parse_ok src pdf raw pfx heading mode jo today s records hsp hpr,
            hnil]
          rfl
        next hcond =>
          injection h with h1 h2
          injection h2 with h3
          subst h1
          rw [on_modified_parse_ok src pdf raw pfx heading mode jo today _ records hsp hpr]
          have hsub : records.filter (fun r => decide (r ∉
              (Session.mk (s.seen ++ records.filter (fun r => decide (r ∉ s.seen)))
                (append_to_xlsx s.store (records.filter (fun r => decide (r ∉ s.seen)))).1).seen)) = [] := by
            rw [List.filter_eq_nil_iff]
            intro r hr
            simp only [decide_eq_true_eq, not_not]
            by_cases hrs : r ∈ s.seen
            · exact List.mem_append_left _ hrs
            · refine List.mem_append_right _ ?_
              rw [List.mem_filter]
              exact ⟨hr, by simpa using hrs⟩
          rw [hsub]
          rfl
  · unfold on_modified at h ⊢
    rw [if_neg hsp] at h ⊢

/-- Witness for C5: a first invocation appends one record; repeating the same
invocation on the resulting session appends nothing. -/
theorem claim_C5_witness :
    on_modified "a.pdf" "a.pdf" (Except.ok [(1, "hi"), (2, "09:30")]) "CHR" "Daily Notes"
        "Comment → Time" "Top to Bottom" "03/03/2024" ⟨[], []⟩
      = (⟨[⟨"03/03/2024", "CHR 2", "Daily Notes\n09:30: hi"⟩],
          [⟨"03/03/2024", "CHR 2", "Daily Notes\n09:30: hi"⟩]⟩,
        Except.ok [⟨"03/03/2024", "CHR 2", "Daily Notes\n09:30: hi"⟩]) ∧
    on_modified "a.pdf" "a.pdf" (Except.ok [(1, "hi"), (2, "09:30")]) "CHR" "Daily Notes"
        "Comment → Time" "Top to Bottom" "03/03/2024"
        ⟨[⟨"03/03/2024", "CHR 2", "Daily Notes\n09:30: hi"⟩],
          [⟨"03/03/2024", "CHR 2", "Daily Notes\n09:30: hi"⟩]⟩
      = (⟨[⟨"03/03/2024", "CHR 2", "Daily Notes\n09:30: hi"⟩],
          [⟨"03/03/2024", "CHR 2", "Daily Notes\n09:30: hi"⟩]⟩, Except.ok []) :=
  ⟨rfl,
   claim_C5 "a.pdf" "a.pdf" (Except.ok [(1, "hi"), (2, "09:30")]) "CHR" "Daily Notes"
     "Comment → Time" "Top to Bottom" "03/03/2024" ⟨[], []⟩
     ⟨[⟨"03/03/2024", "CHR 2", "Daily Notes\n09:30: hi"⟩],
       [⟨"03/03/2024", "CHR 2", "Daily Notes\n09:30: hi"⟩]⟩
     [⟨"03/03/2024", "CHR 2", "Daily Notes\n09:30: hi"⟩] rfl⟩

/-- The banding flag recomputation is exactly an exclusive-or scan over the
date-change indicators: the flag toggles precisely at the rows whose date
differs from the immediately preceding row. -/
theorem bandScan_eq_xorScan : ∀ (rows : List Record) (prev : Option String) (b : Bool),
    bandScan prev b rows = xorScan b (changeFlags prev rows) := by
  intro rows
  induction rows with
  | nil => intro prev b; rfl
  | cons r rest ih =>
    intro prev b
    by_cases h : prev = some r.date_str
    · subst h
      simp [bandScan, changeFlags, xorScan, ih]
    · simp [bandScan, changeFlags, xorScan, h, ih]

/-- Repeated appends accumulate exactly the concatenation of the batches. -/
theorem appendAll_eq_join : ∀ (batches : List (List Record)) (acc : List Record),
    List.foldl (fun st rows => (append_to_xlsx st rows).1) acc batches = acc ++ batches.flatten := by
  intro batches
  induction batches with
  | nil => intro acc; simp
  | cons bt rest ih =>
    intro acc
    rw [List.foldl_cons, ih]
    simp [append_to_xlsx, List.append_assoc]

/-- Claim C7: the banding recomputation scans the whole store with a flag
initially off, toggling exactly at each row whose date differs from the
previous row (the first data row always toggles it on), and a row is filled
iff the flag is on; for rows with dates D1, D1, D2, D2, D1 — however the
appends were split into invocations — the toggles are exactly at rows 1, 3
and 5 and the fill flags are [on, on, off, off, on]. -/
theorem claim_C7 (D1 D2 : String) (hne : D1 ≠ D2)
    (pg1 pg2 pg3 pg4 pg5 i1 i2 i3 i4 i5 : String) (batches : List (List Record))
    (hsplit : batches.flatten =
      [⟨D1, pg1, i1⟩, ⟨D1, pg2, i2⟩, ⟨D2, pg3, i3⟩, ⟨D2, pg4, i4⟩, ⟨D1, pg5, i5⟩]) :
    (∀ rows : List Record, bandScan none false rows = xorScan false (changeFlags none rows)) ∧
    List.foldl (fun st rows => (append_to_xlsx st rows).1) [] batches
      = [⟨D1, pg1, i1⟩, ⟨D1, pg2, i2⟩, ⟨D2, pg3, i3⟩, ⟨D2, pg4, i4⟩, ⟨D1, pg5, i5⟩] ∧
    changeFlags none [⟨D1, pg1, i1⟩, ⟨D1, pg2, i2⟩, ⟨D2, pg3, i3⟩, ⟨D2, pg4, i4⟩, ⟨D1, pg5, i5⟩]
      = [true, false, true, false, true] ∧
    bandScan none false
        [⟨D1, pg1, i1⟩, ⟨D1, pg2, i2⟩, ⟨D2, pg3, i3⟩, ⟨D2, pg4, i4⟩, ⟨D1, pg5, i5⟩]
      = [true, true, false, false, true] := by
  have h12 : ¬(D1 = D2) := hne
  have h21 : ¬(D2 = D1) := fun h => hne h.symm
  refine ⟨fun rows => bandScan_eq_xorScan rows none false, ?_, ?_, ?_⟩
  · rw [appendAll_eq_join batches [], hsplit]
    simp
  · simp [changeFlags, h12, h21]
  · simp [bandScan, h12, h21]

/-- Witness for C7: a concrete D1/D2 store built in three invocations. -/
theorem claim_C7_witness :
    List.foldl (fun st rows => (append_to_xlsx st rows).1) []
        [[⟨"01/01/2024", "p1", "i1"⟩, ⟨"01/01/2024", "p2", "i2"⟩],
          [⟨"02/01/2024", "p3", "i3"⟩],
          [⟨"02/01/2024", "p4", "i4"⟩, ⟨"01/01/2024", "p5", "i5"⟩]]
      = [⟨"01/01/2024", "p1", "i1"⟩, ⟨"01/01/2024", "p2", "i2"⟩, ⟨"02/01/2024", "p3", "i3"⟩,
          ⟨"02/01/2024", "p4", "i4"⟩, ⟨"01/01/2024", "p5", "i5"⟩] ∧
    changeFlags none
        [⟨"01/01/2024", "p1", "i1"⟩, ⟨"01/01/2024", "p2", "i2"⟩, ⟨"02/01/2024", "p3", "i3"⟩,
          ⟨"02/01/2024", "p4", "i4"⟩, ⟨"01/01/2024", "p5", "i5"⟩]
      = [true, false, true, false, true] ∧
    bandScan none false
        [⟨"01/01/2024", "p1", "i1"⟩, ⟨"01/01/2024", "p2", "i2"⟩, ⟨"02/01/2024", "p3", "i3"⟩,
          ⟨"02/01/2024", "p4", "i4"⟩, ⟨"01/01/2024", "p5", "i5"⟩]
      = [true, true, false, false, true] :=
  (claim_C7 "01/01/2024" "02/01/2024" (by decide) "p1" "p2" "p3" "p4" "p5"
      "i1" "i2" "i3" "i4" "i5"
      [[⟨"01/01/2024", "p1", "i1"⟩, ⟨"01/01/2024", "p2", "i2"⟩],
        [⟨"02/01/2024", "p3", "i3"⟩],
        [⟨"02/01/2024", "p4", "i4"⟩, ⟨"01/01/2024", "p5", "i5"⟩]] rfl).2

/-! ### Comment-ordering simulation (claim C8)

Running the assembler with ordering "Bottom to Top" instead of
"Top to Bottom" changes only the join order of each record's accumulated
comments.  This is proved by a step-by-step simulation: both runs carry
identical parser state except that corresponding emitted records are related
by `RecRel`. -/

/-- Two records that agree on date and locator and whose info strings are the
same heading/time over reversed comment joins. -/
def RecRel (heading : String) (r r2 : Record) : Prop :=
  r.date_str = r2.date_str ∧ r.page_str = r2.page_str ∧
    ∃ t cs, r.info = heading ++ "\n" ++ t ++ ": " ++ String.intercalate " [...] " cs ∧
      r2.info = heading ++ "\n" ++ t ++ ": " ++ String.intercalate " [...] " cs.reverse

/-- Simulation relation between the Top-to-Bottom and Bottom-to-Top runs:
identical state except for pointwise `RecRel`-related records. -/
def StRel (heading : String) (st st2 : ParseState) : Prop :=
  List.Forall₂ (RecRel heading) st.records st2.records ∧
    st.current_date = st2.current_date ∧ st.comment_buffer = st2.comment_buffer ∧
    st.pending_time = st2.pending_time ∧ st.lastPage = st2.lastPage

/-- Relate two `Except` results: equal errors, or related successes. -/
def ExceptRel {α β : Type} (R : α → β → Prop) : Except String α → Except String β → Prop
  | Except.error e, Except.error e2 => e = e2
  | Except.ok a, Except.ok b => R a b
  | _, _ => False

/-- A flush of the same group under the two orderings yields `RecRel`-related
records. -/
theorem flush_rel (pfx heading : String) (cd : Option String) (today : String)
    (cs : List String) (t : String) (p : Nat) :
    RecRel heading (flush_group "Top to Bottom" pfx heading cd today cs t p)
      (flush_group "Bottom to Top" pfx heading cd today cs t p) :=
  ⟨rfl, rfl, t, cs, rfl, rfl⟩

/-- One parser step preserves the simulation relation. -/
theorem step_rel (pfx heading mode today : String) (st st2 : ParseState) (page : Nat)
    (txt : String) (h : StRel heading st st2) :
    ExceptRel (StRel heading)
      (parse_step pfx heading mode "Top to Bottom" today st (page, txt))
      (parse_step pfx heading mode "Bottom to Top" today st2 (page, txt)) := by
  obtain ⟨hrec, hcd, hcb, hpt, hlp⟩ := h
  by_cases hd : date_pattern (pyStrip txt) = true
  · rcases hs : strptime_dbY (pyStrip txt) with _ | dmy
    · rw [step_date_err pfx heading mode "Top to Bottom" today st page txt hd hs,
        step_date_err pfx heading mode "Bottom to Top" today st2 page txt hd hs]
      exact rfl
    · rw [step_date_ok pfx heading mode "Top to Bottom" today st page txt dmy hd hs,
        step_date_ok pfx heading mode "Bottom to Top" today st2 page txt dmy hd hs]
      exact ⟨hrec, rfl, rfl, rfl, rfl⟩
  · have hd2 : date_pattern (pyStrip txt) = false := by simpa using hd
    by_cases ht : time_pattern (pyStrip txt) = true
    · cases hm : mode == "Comment → Time"
      · rcases hpt2 : st.pending_time with _ | pt
        · have hpt2b : st2.pending_time = none := by rw [← hpt]; exact hpt2
          rw [step_time_tc_noflush_none pfx heading mode "Top to Bottom" today st page txt ht hm hpt2,
            step_time_tc_noflush_none pfx heading mode "Bottom to Top" today st2 page txt ht hm hpt2b]
          exact ⟨hrec, hcd, hcb, rfl, rfl⟩
        · have hpt2b : st2.pending_time = some pt := by rw [← hpt]; exact hpt2
          cases hb : st.comment_buffer.isEmpty
          · have hb2 : st2.comment_buffer.isEmpty = false := by rw [← hcb]; exact hb
            rw [step_time_tc_flush pfx heading mode "Top to Bottom" today st page txt pt ht hm hpt2 hb,
              step_time_tc_flush pfx heading mode "Bottom to Top" today st2 page txt pt ht hm hpt2b hb2]
            refine ⟨?_, hcd, rfl, rfl, rfl⟩
            rw [← hcd, ← hcb]
            exact List.rel_append hrec
              (List.Forall₂.cons
                (flush_rel pfx heading st.current_date today
                  (st.comment_buffer.map Prod.snd) pt page) List.Forall₂.nil)
          · have hb2 : st2.comment_buffer.isEmpty = true := by rw [← hcb]; exact hb
            rw [step_time_tc_noflush_empty pfx heading mode "Top to Bottom" today st page txt pt ht hm hpt2 hb,
              step_time_tc_noflush_empty pfx heading mode "Bottom to Top" today st2 page txt pt ht hm hpt2b hb2]
            exact ⟨hrec, hcd, hcb, rfl, rfl⟩
      · cases hb : st.comment_buffer.isEmpty
        · have hb2 : st2.comment_buffer.isEmpty = false := by rw [← hcb]; exact hb
          rw [step_time_ct_flush pfx heading mode "Top to Bottom" today st page txt ht hm hb,
            step_time_ct_flush pfx heading mode "Bottom to Top" today st2 page txt ht hm hb2]
          refine ⟨?_, hcd, rfl, hpt, rfl⟩
          rw [← hcd, ← hcb]
          exact List.rel_append hrec
            (List.Forall₂.cons
              (flush_rel pfx heading st.current_date today
                (st.comment_buffer.map Prod.snd) (pyStrip txt) page) List.Forall₂.nil)
        · have hb2 : st2.comment_buffer.isEmpty = true := by rw [← hcb]; exact hb
          rw [step_time_ct_empty pfx heading mode "Top to Bottom" today st page txt ht hm hb,
            step_time_ct_empty pfx heading mode "Bottom to Top" today st2 page txt ht hm hb2]
          exact ⟨hrec, hcd, hcb, hpt, rfl⟩
    · have ht2 : time_pattern (pyStrip txt) = false := by simpa using ht
      rw [step_comment pfx heading mode "Top to Bottom" today st page txt hd2 ht2,
        step_comment pfx heading mode "Bottom to Top" today st2 page txt hd2 ht2]
      refine ⟨hrec, hcd, ?_, hpt, rfl⟩
      rw [hcb]

/-- The whole fragment loop preserves the simulation relation. -/
theorem run_rel (pfx heading mode today : String) :
    ∀ (frags : List (Nat × String)) (st st2 : ParseState), StRel heading st st2 →
      ExceptRel (StRel heading)
        (runParse pfx heading mode "Top to Bottom" today st frags)
        (runParse pfx heading mode "Bottom to Top" today st2 frags) := by
  intro frags
  induction frags with
  | nil => intro st st2 h; exact h
  | cons f rest ih =>
    intro st st2 h
    obtain ⟨page, txt⟩ := f
    have hstep := step_rel pfx heading mode today st st2 page txt h
    rcases hs1 : parse_step pfx heading mode "Top to Bottom" today st (page, txt) with e1 | s1 <;>
      rcases hs2 : parse_step pfx heading mode "Bottom to Top" today st2 (page, txt) with e2 | s2 <;>
      rw [hs1, hs2] at hstep
    · have he : e1 = e2 := hstep
      subst he
      rw [runParse_cons_err pfx heading mode "Top to Bottom" today st (page, txt) rest e1 hs1,
        runParse_cons_err pfx heading mode "Bottom to Top" today st2 (page, txt) rest e1 hs2]
      exact rfl
    · exact (hstep : False).elim
    · exact (hstep : False).elim
    · rw [runParse_cons_ok pfx heading mode "Top to Bottom" today st s1 (page, txt) rest hs1,
        runParse_cons_ok pfx heading mode "Bottom to Top" today st2 s2 (page, txt) rest hs2]
      exact ih s1 s2 hstep

/-- The tail flush preserves the pointwise record relation. -/
theorem finish_rel (pfx heading mode today : String) (st st2 : ParseState)
    (h : StRel heading st st2) :
    List.Forall₂ (RecRel heading)
      (finishParse pfx heading mode "Top to Bottom" today st)
      (finishParse pfx heading mode "Bottom to Top" today st2) := by
  obtain ⟨hrec, hcd, hcb, hpt, hlp⟩ := h
  unfold finishParse
  by_cases hm : (mode == "Time → Comment") = true
  · rw [if_pos hm, if_pos hm]
    rcases hpt2 : st.pending_time with _ | pt
    · have hpt2b : st2.pending_time = none := by rw [← hpt]; exact hpt2
      rw [hpt2b]
      exact hrec
    · have hpt2b : st2.pending_time = some pt := by rw [← hpt]; exact hpt2
      rw [hpt2b]
      dsimp only
      by_cases hb : st.comment_buffer.isEmpty = true
      · have hb2 : st2.comment_buffer.isEmpty = true := by rw [← hcb]; exact hb
        rw [if_pos hb, if_pos hb2]
        exact hrec
      · have hb2 : ¬(st2.comment_buffer.isEmpty = true) := by rw [← hcb]; exact hb
        rw [if_neg hb, if_neg hb2, ← hcd, ← hcb, ← hlp]
        exact List.rel_append hrec
          (List.Forall₂.cons
            (flush_rel pfx heading st.current_date today
              (st.comment_buffer.map Prod.snd) pt st.lastPage) List.Forall₂.nil)
  · rw [if_neg hm, if_neg hm]
    exact hrec

/-- The two orderings yield equal errors or pointwise related record lists. -/
theorem parse_records_rel (frags : List (Nat × String)) (pfx heading mode today : String) :
    ExceptRel (List.Forall₂ (RecRel heading))
      (parse_records frags pfx heading mode "Top to Bottom" today)
      (parse_records frags pfx heading mode "Bottom to Top" today) := by
  have hrun := run_rel pfx heading mode today frags initState initState
    ⟨List.Forall₂.nil, rfl, rfl, rfl, rfl⟩
  unfold parse_records
  rcases h1 : runParse pfx heading mode "Top to Bottom" today initState frags with e1 | s1 <;>
    rcases h2 : runParse pfx heading mode "Bottom to Top" today initState frags with e2 | s2 <;>
    rw [h1, h2] at hrun
  · exact hrun
  · exact (hrun : False).elim
  · exact (hrun : False).elim
  · exact finish_rel pfx heading mode today s1 s2 hrun

/-- Claim C8: for every fragment sequence and configuration, Bottom-to-Top
comment ordering yields the same result as Top-to-Bottom except that within
each Record the accumulated comments are joined in reversed order (separator
" [...] "): errors agree, the number and order of Records agree, and each
Record's date, locator and heading/time prefix agree. -/
theorem claim_C8 (frags : List (Nat × String)) (pfx heading mode today : String) :
    (∀ e, parse_records frags pfx heading mode "Top to Bottom" today = Except.error e ↔
        parse_records frags pfx heading mode "Bottom to Top" today = Except.error e) ∧
    (∀ (rs rs2 : List Record),
        parse_records frags pfx heading mode "Top to Bottom" today = Except.ok rs →
        parse_records frags pfx heading mode "Bottom to Top" today = Except.ok rs2 →
        rs.length = rs2.length ∧
          ∀ (i : Nat) (hi : i < rs.length) (hi2 : i < rs2.length),
            (rs.get ⟨i, hi⟩).date_str = (rs2.get ⟨i, hi2⟩).date_str ∧
            (rs.get ⟨i, hi⟩).page_str = (rs2.get ⟨i, hi2⟩).page_str ∧
            ∃ t cs,
              (rs.get ⟨i, hi⟩).info =
                heading ++ "\n" ++ t ++ ": " ++ String.intercalate " [...] " cs ∧
              (rs2.get ⟨i, hi2⟩).info =
                heading ++ "\n" ++ t ++ ": " ++ String.intercalate " [...] " cs.reverse) := by
  have hrel := parse_records_rel frags pfx heading mode today
  constructor
  · intro e
    constructor
    · intro h1
      rw [h1] at hrel
      rcases h2 : parse_records frags pfx heading mode "Bottom to Top" today with e2 | rs2
      · rw [h2] at hrel
        have he : e = e2 := hrel
        exact congrArg Except.error he.symm
      · rw [h2] at hrel
        exact hrel.elim
    · intro h2
      rw [h2] at hrel
      rcases h1 : parse_records frags pfx heading mode "Top to Bottom" today with e1 | rs1
      · rw [h1] at hrel
        have he : e1 = e := hrel
        exact congrArg Except.error he
      · rw [h1] at hrel
        exact hrel.elim
  · intro rs rs2 h1 h2
    rw [h1, h2] at hrel
    have hf : List.Forall₂ (RecRel heading) rs rs2 := hrel
    exact ⟨hf.length_eq, fun i hi hi2 => hf.get hi hi2⟩

/-- Witness for C8: a two-comment group joined as "A [...] B" under
Top-to-Bottom and "B [...] A" under Bottom-to-Top, otherwise identical. -/
theorem claim_C8_witness :
    parse_records [(1, "A"), (2, "B"), (3, "09:30")] "CHR" "Daily Notes" "Comment → Time"
        "Top to Bottom" "15/03/2024"
      = Except.ok [⟨"15/03/2024", "CHR 3", "Daily Notes\n09:30: A [...] B"⟩] ∧
    parse_records [(1, "A"), (2, "B"), (3, "09:30")] "CHR" "Daily Notes" "Comment → Time"
        "Bottom to Top" "15/03/2024"
      = Except.ok [⟨"15/03/2024", "CHR 3", "Daily Notes\n09:30: B [...] A"⟩] ∧
    (([⟨"15/03/2024", "CHR 3", "Daily Notes\n09:30: A [...] B"⟩] : List Record).length
        = ([⟨"15/03/2024", "CHR 3", "Daily Notes\n09:30: B [...] A"⟩] : List Record).length ∧
      ∀ (i : Nat)
        (hi : i < ([⟨"15/03/2024", "CHR 3", "Daily Notes\n09:30: A [...] B"⟩] : List Record).length)
        (hi2 : i < ([⟨"15/03/2024", "CHR 3", "Daily Notes\n09:30: B [...] A"⟩] : List Record).length),
        (([⟨"15/03/2024", "CHR 3", "Daily Notes\n09:30: A [...] B"⟩] : List Record).get ⟨i, hi⟩).date_str
          = (([⟨"15/03/2024", "CHR 3", "Daily Notes\n09:30: B [...] A"⟩] : List Record).get ⟨i, hi2⟩).date_str ∧
        (([⟨"15/03/2024", "CHR 3", "Daily Notes\n09:30: A [...] B"⟩] : List Record).get ⟨i, hi⟩).page_str
          = (([⟨"15/03/2024", "CHR 3", "Daily Notes\n09:30: B [...] A"⟩] : List Record).get ⟨i, hi2⟩).page_str ∧
        ∃ t cs,
          (([⟨"15/03/2024", "CHR 3", "Daily Notes\n09:30: A [...] B"⟩] : List Record).get ⟨i, hi⟩).info
            = "Daily Notes" ++ "\n" ++ t ++ ": " ++ String.intercalate " [...] " cs ∧
          (([⟨"15/03/2024", "CHR 3", "Daily Notes\n09:30: B [...] A"⟩] : List Record).get ⟨i, hi2⟩).info
            = "Daily Notes" ++ "\n" ++ t ++ ": " ++ String.intercalate " [...] " cs.reverse) :=
  ⟨rfl, rfl,
    (claim_C8 [(1, "A"), (2, "B"), (3, "09:30")] "CHR" "Daily Notes" "Comment → Time"
      "15/03/2024").2
      [⟨"15/03/2024", "CHR 3", "Daily Notes\n09:30: A [...] B"⟩]
      [⟨"15/03/2024", "CHR 3", "Daily Notes\n09:30: B [...] A"⟩] rfl rfl⟩

end PdfWatcher
